import Mathlib

/-!
Verification development for the pharma-stock-dashboard repository.

The repository renders a multi-stock dashboard: it fetches daily price
series for a fixed universe of pharmaceutical equities, computes percentage
change, a normalized base-100 comparison series and best/worst/average
summary statistics, and displays them. Three source files implement the
same core with small variations: src/dashboard.py, src/dashboard_enhanced.py
and src/streamlit_app.py.

Embedding conventions:
- A pandas price frame is modelled by its Close column, a `List ℚ`
  (the claims under study only touch Close and series length);
  `df.iloc[0]` is `headD 0`, `df.iloc[-1]` is `getLastD 0`, `df.empty` and
  `len(df) == 0` are `length = 0`.
- An optional frame (a function that may return None) is `Option (List ℚ)`.
- The external data provider (yfinance history call) is a function
  `String → Option (List ℚ)` from ticker to outcome; `none` models a raised
  exception, `some closes` a returned frame (possibly empty).
- Python float arithmetic is modelled in ℚ; the claims under study concern
  exact arithmetic identities, guards and ordering, not rounding.
-/

/-- One row of the performance_data list built by the dashboards: Company
display name, percent Change and current Price (streamlit_app.py line 74,
dashboard_enhanced.py lines 126-130). -/
structure PerfRecord where
  company : String
  change : ℚ
  price : ℚ
deriving Repr, DecidableEq, Inhabited

/-- One entry of the all_data dictionary: display name, the fetched frame
(Close column), percent change and current price (streamlit_app.py line 73,
dashboard_enhanced.py lines 119-125). -/
structure StockEntry where
  name : String
  closes : List ℚ
  change : ℚ
  currentPrice : ℚ
deriving Repr, DecidableEq

/-- calculate_change from src/streamlit_app.py lines 31-37: when the frame
is not None and non-empty, take the first and last Close and, only when the
first close is strictly positive, return ((end - start) / start) * 100;
in every other case return 0. -/
def streamlit_calculate_change (df : Option (List ℚ)) : ℚ :=
  match df with
  | some closes =>
    if 0 < closes.length then
      if 0 < closes.headD 0 then
        ((closes.getLastD 0 - closes.headD 0) / closes.headD 0) * 100
      else 0
    else 0
  | none => 0

/-- calculate_change from src/dashboard.py lines 26-32 and
src/dashboard_enhanced.py lines 28-34 (the two files are identical here):
when the frame is not None and non-empty, return
((end - start) / start) * 100 with no guard on the sign of the first close;
otherwise return 0. In Python the division is executed even when the first
close is zero or negative. The ℚ embedding agrees with the source for every
non-zero first close; for a first close of exactly zero the source produces
a numpy infinity where ℚ division yields 0, so refutations below use a
negative, never a zero, first close. -/
def dashboard_calculate_change (df : Option (List ℚ)) : ℚ :=
  match df with
  | some closes =>
    if 0 < closes.length then
      ((closes.getLastD 0 - closes.headD 0) / closes.headD 0) * 100
    else 0
  | none => 0

/-- Normalized comparison series from src/streamlit_app.py line 129 and
src/dashboard_enhanced.py line 193: (df[Close] / df[Close].iloc[0]) * 100,
elementwise over the Close column. -/
def normalizedSeries (closes : List ℚ) : List ℚ :=
  closes.map (fun c => c / closes.headD 0 * 100)

/-- get_stock_data from src/streamlit_app.py lines 19-29: one provider call;
on a raised exception return None, on an empty frame return None, otherwise
return the frame. -/
def streamlit_get_stock_data (provider : String → Option (List ℚ))
    (ticker : String) : Option (List ℚ) :=
  match provider ticker with
  | some df => if df.length = 0 then none else some df
  | none => none

/-- get_stock_data from src/dashboard.py lines 17-24 and the frame half of
src/dashboard_enhanced.py lines 18-26: the fetched frame is returned as is,
with no emptiness check (an empty frame passes through); on a raised
exception the function returns None. The info dictionary of the enhanced
variant feeds display-only fields (market cap, P/E) and is not modelled. -/
def dashboard_get_stock_data (provider : String → Option (List ℚ))
    (ticker : String) : Option (List ℚ) :=
  provider ticker

/-- Fetch loop of src/streamlit_app.py lines 66-76: for each (ticker, name)
of the universe in order, fetch via get_stock_data; when the result is not
None and non-empty, record the frame, its percent change and its last close;
otherwise skip the instrument (nothing is appended for it). -/
def streamlit_all_data (provider : String → Option (List ℚ)) :
    List (String × String) → List StockEntry
  | [] => []
  | (ticker, name) :: rest =>
    match streamlit_get_stock_data provider ticker with
    | some df =>
      if 0 < df.length then
        ⟨name, df, streamlit_calculate_change (some df), df.getLastD 0⟩
          :: streamlit_all_data provider rest
      else streamlit_all_data provider rest
    | none => streamlit_all_data provider rest

/-- performance_data rows, appended in the same guarded branch of the loop
(streamlit_app.py line 74). -/
def streamlit_performance_data (provider : String → Option (List ℚ))
    (u : List (String × String)) : List PerfRecord :=
  (streamlit_all_data provider u).map (fun e => ⟨e.name, e.change, e.currentPrice⟩)

/-- Fetch loop of src/dashboard_enhanced.py lines 113-130, structurally
identical to the per-instrument loop of src/dashboard.py lines 78-86: fetch
with no empty-to-None conversion at the boundary, then keep the instrument
only when the frame is not None and non-empty. -/
def enhanced_all_data (provider : String → Option (List ℚ)) :
    List (String × String) → List StockEntry
  | [] => []
  | (ticker, name) :: rest =>
    match dashboard_get_stock_data provider ticker with
    | some df =>
      if 0 < df.length then
        ⟨name, df, dashboard_calculate_change (some df), df.getLastD 0⟩
          :: enhanced_all_data provider rest
      else enhanced_all_data provider rest
    | none => enhanced_all_data provider rest

/-- performance_data rows of update_dashboard
(dashboard_enhanced.py lines 126-130). -/
def enhanced_performance_data (provider : String → Option (List ℚ))
    (u : List (String × String)) : List PerfRecord :=
  (enhanced_all_data provider u).map (fun e => ⟨e.name, e.change, e.currentPrice⟩)

/-- pharma_stocks universe, configured identically in all three source
files. -/
def pharma_stocks : List (String × String) :=
  [("SUNPHARMA.NS", "Sun Pharma"),
   ("DRREDDY.NS", "Dr. Reddy\x27s Labs"),
   ("CIPLA.NS", "Cipla"),
   ("LUPIN.NS", "Lupin"),
   ("AUROPHARMA.NS", "Aurobindo Pharma"),
   ("DIVISLAB.NS", "Divi\x27s Laboratories")]

/-- Ascending-by-Change ordering on performance rows. -/
def changeLe (a b : PerfRecord) : Prop := a.change ≤ b.change

instance : DecidableRel changeLe := fun a b =>
  inferInstanceAs (Decidable (a.change ≤ b.change))

/-- Insertion of one row into an ascending-by-Change list, placing the new
row before the first row whose Change is at least as large; equal keys keep
their original relative order, matching the stable insertion-sort branch
that numpy quicksort takes on partitions of fewer than 16 elements. -/
def insertAsc (x : PerfRecord) : List PerfRecord → List PerfRecord
  | [] => [x]
  | y :: ys => if x.change ≤ y.change then x :: y :: ys else y :: insertAsc x ys

/-- Stable ascending sort of performance rows by the Change column. -/
def sortAsc : List PerfRecord → List PerfRecord
  | [] => []
  | x :: xs => insertAsc x (sortAsc xs)

/-- DataFrame.sort_values on the Change column with ascending=False, as
called at streamlit_app.py line 86 and dashboard_enhanced.py line 131:
pandas nargsort computes an ascending argsort of the column with the default
numpy quicksort and reverses the index order for a descending sort; numpy
quicksort runs a stable insertion sort on partitions of fewer than 16
elements, so on the universes of this repository (six instruments) the
descending frame is exactly the reverse of a stable ascending sort. -/
def sort_values_change_desc (recs : List PerfRecord) : List PerfRecord :=
  (sortAsc recs).reverse

/-- best = performance_df.iloc[0] after the descending sort
(streamlit_app.py line 87, dashboard_enhanced.py line 133). -/
def bestPerformer (recs : List PerfRecord) : PerfRecord :=
  (sort_values_change_desc recs).headD default

/-- worst = performance_df.iloc[-1] after the descending sort
(streamlit_app.py line 88, dashboard_enhanced.py line 134). -/
def worstPerformer (recs : List PerfRecord) : PerfRecord :=
  (sort_values_change_desc recs).getLastD default

/-- avg = performance_df[Change].mean() (streamlit_app.py line 89,
dashboard_enhanced.py line 135): the sum of the Change column divided by the
number of rows. -/
def mean_change (recs : List PerfRecord) : ℚ :=
  (recs.map PerfRecord.change).sum / (recs.length : ℚ)

/-- Terminal states of the streamlit presentation after the fetch loop:
either the distinct no-data state (error banner plus st.stop, a retry
prompt) or the rendered dashboard summary. -/
inductive StreamlitView where
  | emptyResult
  | dashboard (best worst : PerfRecord) (avg : ℚ)
deriving Repr, DecidableEq

/-- Lines 81-89 of src/streamlit_app.py: when performance_data is empty,
show the retry message and stop (the EmptyResult terminal state); otherwise
build the summary from the descending sort and the column mean. -/
def streamlit_render (provider : String → Option (List ℚ))
    (u : List (String × String)) : StreamlitView :=
  let recs := streamlit_performance_data provider u
  if recs.isEmpty then StreamlitView.emptyResult
  else StreamlitView.dashboard (bestPerformer recs) (worstPerformer recs)
    (mean_change recs)

/-- pd.DataFrame(rows).sort_values on the Change column at
dashboard_enhanced.py line 131: when rows is the empty list the constructed
DataFrame has no columns at all and sort_values raises a KeyError naming the
missing Change column; otherwise it sorts as sort_values_change_desc. -/
def enhanced_sorted_frame (recs : List PerfRecord) :
    Except String (List PerfRecord) :=
  if recs.isEmpty then Except.error "KeyError: Change"
  else Except.ok (sort_values_change_desc recs)

/-- Summary block computed by update_dashboard
(dashboard_enhanced.py lines 131-135). -/
structure EnhancedSummary where
  best : Option PerfRecord
  worst : Option PerfRecord
  avg : ℚ
deriving Repr, DecidableEq

/-- update_dashboard summary step (dashboard_enhanced.py lines 131-135):
sort the performance frame by Change descending, then take best and worst
guarded by len > 0 (None when empty) and the average guarded by len > 0
(0 when empty). The sort itself is not inside any guard, so its KeyError on
an empty frame propagates. -/
def enhanced_update_dashboard_summary (provider : String → Option (List ℚ))
    (u : List (String × String)) : Except String EnhancedSummary :=
  let recs := enhanced_performance_data provider u
  match enhanced_sorted_frame recs with
  | Except.error e => Except.error e
  | Except.ok sorted =>
    Except.ok
      ⟨if 0 < sorted.length then some (sorted.headD default) else none,
       if 0 < sorted.length then some (sorted.getLastD default) else none,
       if 0 < recs.length then mean_change recs else 0⟩

/-- Outcome of a bounded-retry fetch: attempts performed, seconds of fixed
inter-attempt delay waited, and the series when an attempt succeeded. -/
structure RetryOutcome where
  attempts : Nat
  delaySeconds : Nat
  result : Option (List ℚ)
deriving Repr, DecidableEq

/-- Modelled from the spec: FetchWithRetry.fetch of spec section 4.1 has no
implementation in the files under src (get_stock_data in src/dashboard.py
and src/streamlit_app.py performs a single DataSource attempt, with no retry
loop, no delay and no maxAttempts parameter); the spec attributes the retry
wrapper to the repository variants outside src. The recursion follows the
spec words: call DataSource once per attempt; an attempt fails when
DataSource raises or returns an empty series; on failure with attempts
remaining, wait the fixed 2-second delay and retry; when attempts are
exhausted return failure. The DataSource is a function from the 0-based
attempt index to the outcome of that call (none = raise or timeout). The
done argument counts attempts already performed, the Nat argument the
attempts remaining. -/
def fetch_with_retry (ds : Nat → Option (List ℚ)) (done : Nat) :
    Nat → RetryOutcome
  | 0 => ⟨done, 2 * (done - 1), none⟩
  | remaining + 1 =>
    match ds done with
    | some s =>
      if 0 < s.length then ⟨done + 1, 2 * done, some s⟩
      else fetch_with_retry ds (done + 1) remaining
    | none => fetch_with_retry ds (done + 1) remaining

/-- Modelled from the spec: the public entry of FetchWithRetry (section
4.1), starting with zero attempts performed; maxAttempts defaults to 3 in
the spec and is passed explicitly here. -/
def FetchWithRetry_fetch (ds : Nat → Option (List ℚ)) (maxAttempts : Nat) :
    RetryOutcome :=
  fetch_with_retry ds 0 maxAttempts

/-- A DataSource attempt counts as failed when it raises or returns an
empty series: equivalently, every series it returns is empty. -/
def attemptFailed (ds : Nat → Option (List ℚ)) (j : Nat) : Prop :=
  ∀ s, ds j = some s → s = []

/-- Head of a reversed list is its last element, default included. -/
lemma headD_reverse_eq_getLastD (l : List PerfRecord) (d : PerfRecord) :
    l.reverse.headD d = l.getLastD d := by
  rw [List.headD_eq_head?, List.head?_reverse, List.getLastD_eq_getLast?]

/-- Last element of a reversed list is its head, default included. -/
lemma getLastD_reverse_eq_headD (l : List PerfRecord) (d : PerfRecord) :
    l.reverse.getLastD d = l.headD d := by
  rw [List.getLastD_eq_getLast?, List.getLast?_reverse, List.headD_eq_head?]

/-- Membership through insertAsc. -/
lemma mem_insertAsc {a x : PerfRecord} {l : List PerfRecord} :
    a ∈ insertAsc x l ↔ a = x ∨ a ∈ l := by
  induction l with
  | nil => simp [insertAsc]
  | cons y ys ih =>
    by_cases h : x.change ≤ y.change
    · simp [insertAsc, h]
    · simp [insertAsc, h, ih]
      tauto

/-- insertAsc adds exactly one element. -/
lemma length_insertAsc (x : PerfRecord) (l : List PerfRecord) :
    (insertAsc x l).length = l.length + 1 := by
  induction l with
  | nil => rfl
  | cons y ys ih =>
    by_cases h : x.change ≤ y.change
    · simp [insertAsc, h]
    · simp [insertAsc, h, ih]

/-- sortAsc preserves length. -/
lemma length_sortAsc (l : List PerfRecord) : (sortAsc l).length = l.length := by
  induction l with
  | nil => rfl
  | cons x xs ih => simp [sortAsc, length_insertAsc, ih]

/-- sortAsc preserves membership. -/
lemma mem_sortAsc {a : PerfRecord} {l : List PerfRecord} :
    a ∈ sortAsc l ↔ a ∈ l := by
  induction l with
  | nil => simp [sortAsc]
  | cons x xs ih => simp [sortAsc, mem_insertAsc, ih]

/-- insertAsc keeps the list ascending by Change. -/
lemma pairwise_insertAsc (x : PerfRecord) (l : List PerfRecord)
    (h : l.Pairwise changeLe) : (insertAsc x l).Pairwise changeLe := by
  induction l with
  | nil => simp [insertAsc, changeLe]
  | cons y ys ih =>
    rcases List.pairwise_cons.mp h with ⟨hy, hys⟩
    by_cases hxy : x.change ≤ y.change
    · simp only [insertAsc, if_pos hxy]
      refine List.pairwise_cons.mpr ⟨?_, h⟩
      intro b hb
      rcases List.mem_cons.mp hb with rfl | hb
      · exact hxy
      · exact le_trans hxy (hy b hb)
    · simp only [insertAsc, if_neg hxy]
      refine List.pairwise_cons.mpr ⟨?_, ih hys⟩
      intro b hb
      rcases mem_insertAsc.mp hb with rfl | hb
      · exact le_of_not_le hxy
      · exact hy b hb

/-- sortAsc sorts ascending by Change. -/
lemma pairwise_sortAsc (l : List PerfRecord) : (sortAsc l).Pairwise changeLe := by
  induction l with
  | nil => simp [sortAsc]
  | cons x xs ih =>
    simp only [sortAsc]
    exact pairwise_insertAsc x (sortAsc xs) ih

/-- getLastD of a non-empty list is a member. -/
lemma getLastD_mem (l : List PerfRecord) (h : l ≠ []) (d : PerfRecord) :
    l.getLastD d ∈ l := by
  rw [List.getLastD_eq_getLast?, List.getLast?_eq_getLast l h, Option.getD_some]
  exact List.getLast_mem h

/-- headD of a non-empty list is a member. -/
lemma headD_mem (l : List PerfRecord) (h : l ≠ []) (d : PerfRecord) :
    l.headD d ∈ l := by
  rw [List.headD_eq_head?, List.head?_eq_head h, Option.getD_some]
  exact List.head_mem h

/-- getLastD ignores the head of a list with at least two elements. -/
lemma getLastD_cons_cons (y z d : PerfRecord) (zs : List PerfRecord) :
    (y :: z :: zs).getLastD d = (z :: zs).getLastD d := by
  rw [List.getLastD_eq_getLast?, List.getLastD_eq_getLast?, List.getLast?_cons_cons]

/-- In a list ascending by Change, the head has minimal Change. -/
lemma pairwise_headD_le (l : List PerfRecord) (h : l.Pairwise changeLe)
    (a : PerfRecord) (ha : a ∈ l) : (l.headD default).change ≤ a.change := by
  cases l with
  | nil => cases ha
  | cons y ys =>
    rcases List.mem_cons.mp ha with rfl | ha
    · simp
    · exact (List.pairwise_cons.mp h).1 a ha

/-- In a list ascending by Change, the last element has maximal Change. -/
lemma pairwise_le_getLastD :
    ∀ l : List PerfRecord, l.Pairwise changeLe →
      ∀ a ∈ l, a.change ≤ (l.getLastD default).change
  | [], _, a, ha => absurd ha (List.not_mem_nil a)
  | [y], _, a, ha => by
    rcases List.mem_singleton.mp ha with rfl
    simp [List.getLastD]
  | y :: z :: zs, h, a, ha => by
    rw [getLastD_cons_cons]
    rcases List.mem_cons.mp ha with rfl | ha2
    · have hmem : (z :: zs).getLastD default ∈ z :: zs :=
        getLastD_mem (z :: zs) (by simp) default
      exact (List.pairwise_cons.mp h).1 _ hmem
    · exact pairwise_le_getLastD (z :: zs) (List.pairwise_cons.mp h).2 a ha2

/-- C1 (amended): in the streamlit variant the guard holds as the claim
states it: when the frame is None, or the series has fewer than one record,
or the first close is non-positive, calculate_change returns the defined
zero value and the division by the first close is not performed. In the
calculate_change of dashboard.py and dashboard_enhanced.py the guard covers
only the None and empty cases, and the division is performed even on a
non-positive first close (see the counterexample). -/
theorem c1_streamlit_guard (df : Option (List ℚ))
    (h : df = none ∨ df = some [] ∨
      ∃ closes, df = some closes ∧ closes.headD 0 ≤ 0) :
    streamlit_calculate_change df = 0 := by
  rcases h with rfl | rfl | ⟨closes, rfl, hle⟩
  · rfl
  · rfl
  · simp only [streamlit_calculate_change]
    by_cases hl : 0 < closes.length
    · rw [if_pos hl, if_neg (not_lt.mpr hle)]
    · rw [if_neg hl]

theorem c1_streamlit_guard_witness :
    streamlit_calculate_change (some [-2, 3]) = 0 :=
  c1_streamlit_guard (some [-2, 3])
    (Or.inr (Or.inr ⟨[-2, 3], rfl, by norm_num⟩))

/-- C1 (counterexample): calculate_change of dashboard.py and
dashboard_enhanced.py, applied to the series with Close column [-2, 3]
(non-positive first close, two records), performs the division by the
non-positive first close and returns -250, not the defined zero value the
claim requires for every such input. -/
theorem c1_dashboard_counterexample :
    dashboard_calculate_change (some [-2, 3]) = -250
    ∧ dashboard_calculate_change (some [-2, 3]) ≠ 0 := by
  constructor
  · norm_num [dashboard_calculate_change]
  · norm_num [dashboard_calculate_change]

/-- C5: for every non-empty series whose first close is strictly positive,
both calculate_change variants return exactly
(close[last] - close[first]) / close[first] * 100; the identity is exact in
the ℚ embedding of the float arithmetic. -/
theorem c5_percent_change_formula (closes : List ℚ)
    (h1 : closes ≠ []) (h2 : 0 < closes.headD 0) :
    streamlit_calculate_change (some closes)
      = (closes.getLastD 0 - closes.headD 0) / closes.headD 0 * 100
    ∧ dashboard_calculate_change (some closes)
      = (closes.getLastD 0 - closes.headD 0) / closes.headD 0 * 100 := by
  have hl : 0 < closes.length := List.length_pos.mpr h1
  constructor
  · simp only [streamlit_calculate_change]
    rw [if_pos hl, if_pos h2]
  · simp only [dashboard_calculate_change]
    rw [if_pos hl]

theorem c5_percent_change_formula_witness :
    streamlit_calculate_change (some [100, 110]) = 10
    ∧ dashboard_calculate_change (some [100, 110]) = 10 := by
  obtain ⟨ha, hb⟩ := c5_percent_change_formula [100, 110] (by simp) (by norm_num)
  constructor
  · rw [ha]; norm_num
  · rw [hb]; norm_num

/-- C6: whenever close[0] > 0, the normalized comparison series equals
close[i] / close[0] * 100 at every index i, and its first element is
exactly 100. -/
theorem c6_normalized_series (closes : List ℚ) (h0 : 0 < closes.headD 0) :
    (∀ i, i < closes.length →
      (normalizedSeries closes).getD i 0 = closes.getD i 0 / closes.headD 0 * 100)
    ∧ (normalizedSeries closes).headD 0 = 100 := by
  constructor
  · intro i hi
    rw [normalizedSeries, List.getD_eq_getElem?_getD, List.getElem?_map,
      List.getD_eq_getElem?_getD, List.getElem?_eq_getElem hi]
    simp
  · cases closes with
    | nil => simp at h0
    | cons c t =>
      have hc : (c :: t).headD 0 = c := rfl
      rw [hc] at h0
      simp only [normalizedSeries, List.map_cons, List.headD_cons]
      rw [div_self (ne_of_gt h0), one_mul]

theorem c6_normalized_series_witness :
    (normalizedSeries [50, 100]).getD 1 0 = 200
    ∧ (normalizedSeries [50, 100]).headD 0 = 100 := by
  obtain ⟨h1, h2⟩ := c6_normalized_series [50, 100] (by norm_num)
  refine ⟨?_, h2⟩
  rw [h1 1 (by norm_num)]
  norm_num

/-- C9: a series of exactly one record with positive close yields 0 from
both calculate_change variants, the same value returned for an empty frame
and for a None frame: at the interface the flat-performance, single-point
and missing-data cases cannot be told apart from the return value alone. -/
theorem c9_single_record_zero (c : ℚ) (h : 0 < c) :
    streamlit_calculate_change (some [c]) = 0
    ∧ dashboard_calculate_change (some [c]) = 0
    ∧ streamlit_calculate_change (some []) = 0
    ∧ streamlit_calculate_change none = 0
    ∧ dashboard_calculate_change (some []) = 0
    ∧ dashboard_calculate_change none = 0 := by
  refine ⟨?_, ?_, rfl, rfl, rfl, rfl⟩
  · simp [streamlit_calculate_change, h]
  · simp [dashboard_calculate_change]

theorem c9_single_record_zero_witness :
    streamlit_calculate_change (some [5]) = 0
    ∧ dashboard_calculate_change (some [5]) = 0
    ∧ streamlit_calculate_change (some []) = 0
    ∧ streamlit_calculate_change none = 0
    ∧ dashboard_calculate_change (some []) = 0
    ∧ dashboard_calculate_change none = 0 :=
  c9_single_record_zero 5 (by norm_num)

/-- C4 (amended): best and worst are selected by percentChange, with best a
record of maximal and worst a record of minimal percentChange among the
produced records; but the tie-break is not first-seen order for best:
pandas sort_values with ascending=False reverses a stable ascending sort,
so among ties best is the last-seen record with the maximal value and worst
the first-seen record with the minimal value (for percentChange values
[5, -3, 5, 0], the second record with value 5 is best, and the only record
with value -3 is worst; see the counterexample). -/
theorem c4_best_worst_extremal (recs : List PerfRecord) (h : recs ≠ []) :
    bestPerformer recs ∈ recs ∧ worstPerformer recs ∈ recs
    ∧ ∀ r ∈ recs, r.change ≤ (bestPerformer recs).change
        ∧ (worstPerformer recs).change ≤ r.change := by
  have hs : sortAsc recs ≠ [] := by
    intro hnil
    apply h
    have hlen := length_sortAsc recs
    rw [hnil] at hlen
    exact List.length_eq_zero.mp hlen.symm
  have hbest : bestPerformer recs = (sortAsc recs).getLastD default := by
    unfold bestPerformer sort_values_change_desc
    exact headD_reverse_eq_getLastD _ _
  have hworst : worstPerformer recs = (sortAsc recs).headD default := by
    unfold worstPerformer sort_values_change_desc
    exact getLastD_reverse_eq_headD _ _
  have hpw := pairwise_sortAsc recs
  refine ⟨?_, ?_, ?_⟩
  · rw [hbest]
    exact mem_sortAsc.mp (getLastD_mem _ hs _)
  · rw [hworst]
    exact mem_sortAsc.mp (headD_mem _ hs _)
  · intro r hr
    have hr2 : r ∈ sortAsc recs := mem_sortAsc.mpr hr
    constructor
    · rw [hbest]
      exact pairwise_le_getLastD _ hpw r hr2
    · rw [hworst]
      exact pairwise_headD_le _ hpw r hr2

/-- Four performance rows whose Change column is [5, -3, 5, 0], in
configured-universe order R0, R1, R2, R3. -/
def c4_records : List PerfRecord :=
  [⟨"R0", 5, 1⟩, ⟨"R1", -3, 1⟩, ⟨"R2", 5, 1⟩, ⟨"R3", 0, 1⟩]

/-- C4 (counterexample): on the Change column [5, -3, 5, 0] the descending
sort performed by the dashboards puts the last-seen maximal record first:
best is R2 (the second record with value 5), not the first-seen R0 the
claim requires; worst is R1 as the claim says. -/
theorem c4_counterexample :
    (bestPerformer c4_records).company = "R2"
    ∧ (c4_records.headD default).company = "R0"
    ∧ (c4_records.headD default).change = 5
    ∧ (bestPerformer c4_records).change = 5
    ∧ (worstPerformer c4_records).company = "R1"
    ∧ ("R2" : String) ≠ "R0" := by
  refine ⟨?_, rfl, rfl, ?_, ?_, by decide⟩ <;>
    norm_num [c4_records, bestPerformer, worstPerformer,
      sort_values_change_desc, sortAsc, insertAsc]

theorem c4_best_worst_extremal_witness :
    bestPerformer c4_records ∈ c4_records ∧ worstPerformer c4_records ∈ c4_records
    ∧ ∀ r ∈ c4_records, r.change ≤ (bestPerformer c4_records).change
        ∧ (worstPerformer c4_records).change ≤ r.change :=
  c4_best_worst_extremal c4_records (by simp [c4_records])

/-- Provider on which every fetch raises. -/
def c3_failing_provider : String → Option (List ℚ) := fun _ => none

/-- C3: with every fetch failing over the configured universe, the
streamlit variant reaches its distinct EmptyResult terminal state (error
banner plus stop, no exception), but update_dashboard of
dashboard_enhanced.py raises a KeyError inside sort_values on the empty,
column-less performance frame, before its own len > 0 guards for best,
worst and average are ever reached: the enhanced variant crashes on exactly
the input the claim covers. -/
theorem c3_empty_aggregation :
    streamlit_render c3_failing_provider pharma_stocks = StreamlitView.emptyResult
    ∧ enhanced_update_dashboard_summary c3_failing_provider pharma_stocks
        = Except.error "KeyError: Change" := by
  exact ⟨rfl, rfl⟩

/-- The streamlit fetch loop distributes over concatenation of universes. -/
lemma streamlit_all_data_append (p : String → Option (List ℚ))
    (a b : List (String × String)) :
    streamlit_all_data p (a ++ b)
      = streamlit_all_data p a ++ streamlit_all_data p b := by
  induction a with
  | nil => rfl
  | cons hd tl ih =>
    obtain ⟨ticker, name⟩ := hd
    simp only [List.cons_append, streamlit_all_data]
    cases h : streamlit_get_stock_data p ticker with
    | none => exact ih
    | some df =>
      by_cases hl : 0 < df.length
      · simp [hl, ih]
      · simp [hl, ih]

/-- The dash fetch loop distributes over concatenation of universes. -/
lemma enhanced_all_data_append (p : String → Option (List ℚ))
    (a b : List (String × String)) :
    enhanced_all_data p (a ++ b)
      = enhanced_all_data p a ++ enhanced_all_data p b := by
  induction a with
  | nil => rfl
  | cons hd tl ih =>
    obtain ⟨ticker, name⟩ := hd
    simp only [List.cons_append, enhanced_all_data]
    cases h : dashboard_get_stock_data p ticker with
    | none => exact ih
    | some df =>
      by_cases hl : 0 < df.length
      · simp [hl, ih]
      · simp [hl, ih]

/-- C7: in the aggregation loops of streamlit_app.py (lines 66-76) and of
dashboard_enhanced.py (lines 113-130; the per-instrument loop of
dashboard.py lines 78-86 has the same skip structure), an instrument whose
fetch raised or whose series is empty is dropped and the remainder of the
universe is processed exactly as if the instrument were absent: the failed
instrument contributes no entry of any kind to the output and its failure
aborts nothing. -/
theorem c7_failure_isolation (u1 u2 : List (String × String))
    (t n : String) (provider : String → Option (List ℚ))
    (h : provider t = none ∨ provider t = some []) :
    streamlit_all_data provider (u1 ++ (t, n) :: u2)
      = streamlit_all_data provider u1 ++ streamlit_all_data provider u2
    ∧ enhanced_all_data provider (u1 ++ (t, n) :: u2)
      = enhanced_all_data provider u1 ++ enhanced_all_data provider u2 := by
  have hs : streamlit_all_data provider ((t, n) :: u2)
      = streamlit_all_data provider u2 := by
    rcases h with h | h
    · simp [streamlit_all_data, streamlit_get_stock_data, h]
    · simp [streamlit_all_data, streamlit_get_stock_data, h]
  have he : enhanced_all_data provider ((t, n) :: u2)
      = enhanced_all_data provider u2 := by
    rcases h with h | h
    · simp [enhanced_all_data, dashboard_get_stock_data, h]
    · simp [enhanced_all_data, dashboard_get_stock_data, h]
  rw [streamlit_all_data_append, enhanced_all_data_append, hs, he]
  exact ⟨rfl, rfl⟩

/-- Provider for the isolation witness: the middle instrument raises, the
outer two return two-record series. -/
def c7_provider : String → Option (List ℚ) := fun t =>
  if t = "AAA.NS" then some [100, 110]
  else if t = "CCC.NS" then some [100, 102]
  else none

theorem c7_failure_isolation_witness :
    streamlit_all_data c7_provider
        ([("AAA.NS", "A")] ++ ("BBB.NS", "B") :: [("CCC.NS", "C")])
      = streamlit_all_data c7_provider [("AAA.NS", "A")]
        ++ streamlit_all_data c7_provider [("CCC.NS", "C")]
    ∧ enhanced_all_data c7_provider
        ([("AAA.NS", "A")] ++ ("BBB.NS", "B") :: [("CCC.NS", "C")])
      = enhanced_all_data c7_provider [("AAA.NS", "A")]
        ++ enhanced_all_data c7_provider [("CCC.NS", "C")] :=
  c7_failure_isolation [("AAA.NS", "A")] [("CCC.NS", "C")] "BBB.NS" "B"
    c7_provider (Or.inl rfl)

/-- Every entry kept by the streamlit fetch loop has a non-empty series. -/
lemma streamlit_all_data_closes_nonempty (p : String → Option (List ℚ)) :
    ∀ u : List (String × String), ∀ e ∈ streamlit_all_data p u, e.closes ≠ []
  | [] => by intro e he; cases he
  | (ticker, name) :: rest => by
    intro e he
    have ih := streamlit_all_data_closes_nonempty p rest
    simp only [streamlit_all_data] at he
    split at he
    · split at he
      · rename_i df heq hl
        rcases List.mem_cons.mp he with rfl | he2
        · intro hnil
          have hd : df = [] := hnil
          rw [hd] at hl
          simp at hl
        · exact ih e he2
      · exact ih e he
    · exact ih e he

/-- Every entry kept by the dash fetch loop has a non-empty series. -/
lemma enhanced_all_data_closes_nonempty (p : String → Option (List ℚ)) :
    ∀ u : List (String × String), ∀ e ∈ enhanced_all_data p u, e.closes ≠ []
  | [] => by intro e he; cases he
  | (ticker, name) :: rest => by
    intro e he
    have ih := enhanced_all_data_closes_nonempty p rest
    simp only [enhanced_all_data] at he
    split at he
    · split at he
      · rename_i df heq hl
        rcases List.mem_cons.mp he with rfl | he2
        · intro hnil
          have hd : df = [] := hnil
          rw [hd] at hl
          simp at hl
        · exact ih e he2
      · exact ih e he
    · exact ih e he

/-- C10: every instrument that appears in the aggregated output carries a
series with at least one record, so the iloc[0] and iloc[-1] close accesses
performed on it (current price, percent change, chart base) are in bounds;
in the streamlit variant the invariant is additionally enforced at the
fetch boundary, where an empty provider response is converted to None
before reaching any consumer. -/
theorem c10_output_series_nonempty (provider : String → Option (List ℚ))
    (u : List (String × String)) :
    (∀ t s, streamlit_get_stock_data provider t = some s → s ≠ [])
    ∧ (∀ e ∈ streamlit_all_data provider u, e.closes ≠ [])
    ∧ (∀ e ∈ enhanced_all_data provider u, e.closes ≠ []) := by
  refine ⟨?_, streamlit_all_data_closes_nonempty provider u,
    enhanced_all_data_closes_nonempty provider u⟩
  intro t s hs
  simp only [streamlit_get_stock_data] at hs
  split at hs
  · rename_i df heq
    split at hs
    · cases hs
    · rename_i hd
      injection hs with hsd
      subst hsd
      intro hnil
      rw [hnil] at hd
      simp at hd
  · cases hs

theorem c10_output_series_nonempty_witness :
    (∀ t s, streamlit_get_stock_data c7_provider t = some s → s ≠ [])
    ∧ (∀ e ∈ streamlit_all_data c7_provider pharma_stocks, e.closes ≠ [])
    ∧ (∀ e ∈ enhanced_all_data c7_provider pharma_stocks, e.closes ≠ []) :=
  c10_output_series_nonempty c7_provider pharma_stocks

/-- Universe for the summary scenario: three instruments with display names
A, B and C. -/
def c8_universe : List (String × String) :=
  [("AAA.NS", "A"), ("BBB.NS", "B"), ("CCC.NS", "C")]

/-- Provider for the summary scenario: series moving +10, -5 and +2
percent. -/
def c8_provider : String → Option (List ℚ) := fun t =>
  if t = "AAA.NS" then some [100, 110]
  else if t = "BBB.NS" then some [100, 95]
  else if t = "CCC.NS" then some [100, 102]
  else none

/-- C8: the summary average is the arithmetic mean of percent change over
exactly the produced records (instruments skipped by the loop contribute
nothing to sum or count), and on a universe producing changes +10, -5 and
+2 percent the average is (10 - 5 + 2) / 3 = 7/3 = 2.333..., with best
display name A and worst display name B; the enhanced variant computes the
same summary on this scenario. -/
theorem c8_average_mean (u : List (String × String))
    (p : String → Option (List ℚ))
    (h : streamlit_performance_data p u ≠ []) :
    mean_change (streamlit_performance_data p u)
        * ((streamlit_performance_data p u).length : ℚ)
      = ((streamlit_performance_data p u).map PerfRecord.change).sum
    ∧ mean_change (streamlit_performance_data c8_provider c8_universe) = 7 / 3
    ∧ (bestPerformer (streamlit_performance_data c8_provider c8_universe)).company = "A"
    ∧ (worstPerformer (streamlit_performance_data c8_provider c8_universe)).company = "B"
    ∧ enhanced_update_dashboard_summary c8_provider c8_universe
      = Except.ok ⟨some ⟨"A", 10, 110⟩, some ⟨"B", -5, 95⟩, 7 / 3⟩ := by
  have hn : ((streamlit_performance_data p u).length : ℚ) ≠ 0 := by
    have hp : 0 < (streamlit_performance_data p u).length :=
      List.length_pos.mpr h
    exact_mod_cast Nat.pos_iff_ne_zero.mp hp
  constructor
  · rw [mean_change, div_mul_cancel₀ _ hn]
  refine ⟨?_, ?_, ?_, ?_⟩ <;>
    · simp [streamlit_performance_data, streamlit_all_data,
        streamlit_get_stock_data, c8_provider, c8_universe,
        streamlit_calculate_change, mean_change, bestPerformer, worstPerformer,
        sort_values_change_desc, sortAsc, insertAsc,
        enhanced_update_dashboard_summary, enhanced_performance_data,
        enhanced_all_data, dashboard_get_stock_data, dashboard_calculate_change,
        enhanced_sorted_frame]
      norm_num [insertAsc]

theorem c8_average_mean_witness :
    mean_change (streamlit_performance_data c8_provider c8_universe) = 7 / 3
    ∧ (bestPerformer (streamlit_performance_data c8_provider c8_universe)).company = "A"
    ∧ (worstPerformer (streamlit_performance_data c8_provider c8_universe)).company = "B" := by
  have h := c8_average_mean c8_universe c8_provider
    (by simp [streamlit_performance_data, streamlit_all_data,
      streamlit_get_stock_data, c8_provider, c8_universe])
  exact ⟨h.2.1, h.2.2.1, h.2.2.2.1⟩

/-- Invariants of the retry recursion: attempts stay between the attempts
already performed and the attempt budget, the waited delay is 2 seconds per
inter-attempt gap, and a returned series is the non-empty result of the
last attempt performed, every earlier attempt in this run having failed. -/
lemma fetch_with_retry_spec (ds : Nat → Option (List ℚ)) (remaining done : Nat) :
    done ≤ (fetch_with_retry ds done remaining).attempts
    ∧ (fetch_with_retry ds done remaining).attempts ≤ done + remaining
    ∧ (fetch_with_retry ds done remaining).delaySeconds
        = 2 * ((fetch_with_retry ds done remaining).attempts - 1)
    ∧ ∀ s, (fetch_with_retry ds done remaining).result = some s →
        s ≠ [] ∧ ds ((fetch_with_retry ds done remaining).attempts - 1) = some s
        ∧ ∀ j, done ≤ j → j < (fetch_with_retry ds done remaining).attempts - 1 →
            attemptFailed ds j := by
  induction remaining generalizing done with
  | zero =>
    refine ⟨Nat.le_refl done, Nat.le_add_right done 0, rfl, ?_⟩
    intro s hs
    cases hs
  | succ rem ih =>
    simp only [fetch_with_retry]
    split
    · rename_i s0 hds
      by_cases hlen : 0 < s0.length
      · rw [if_pos hlen]
        refine ⟨Nat.le_succ done, ?_, ?_, ?_⟩
        · show done + 1 ≤ done + (rem + 1)
          omega
        · show 2 * done = 2 * (done + 1 - 1)
          omega
        intro s hs
        have hss : s0 = s := by
          injection hs
        subst hss
        refine ⟨?_, ?_, ?_⟩
        · intro hnil
          rw [hnil] at hlen
          simp at hlen
        · have hdd : done + 1 - 1 = done := by omega
          rw [hdd, hds]
        · intro j hj1 hj2
          have hj2b : j < done + 1 - 1 := hj2
          omega
      · rw [if_neg hlen]
        obtain ⟨ih1, ih2, ih3, ih4⟩ := ih (done + 1)
        refine ⟨by omega, by omega, ih3, ?_⟩
        intro s hs
        obtain ⟨g1, g2, g3⟩ := ih4 s hs
        refine ⟨g1, g2, ?_⟩
        intro j hj1 hj2
        rcases Nat.eq_or_lt_of_le hj1 with rfl | hj3
        · intro t ht
          rw [hds] at ht
          injection ht with htt
          subst htt
          exact List.length_eq_zero.mp (by omega)
        · exact g3 j hj3 hj2
    · rename_i hds
      obtain ⟨ih1, ih2, ih3, ih4⟩ := ih (done + 1)
      refine ⟨by omega, by omega, ih3, ?_⟩
      intro s hs
      obtain ⟨g1, g2, g3⟩ := ih4 s hs
      refine ⟨g1, g2, ?_⟩
      intro j hj1 hj2
      rcases Nat.eq_or_lt_of_le hj1 with rfl | hj3
      · intro t ht
        rw [hds] at ht
        cases ht
      · exact g3 j hj3 hj2

/-- With at least one attempt remaining, the retry recursion performs at
least one further attempt. -/
lemma fetch_with_retry_attempts_pos (ds : Nat → Option (List ℚ))
    (rem done : Nat) (h : 0 < rem) :
    done < (fetch_with_retry ds done rem).attempts := by
  cases rem with
  | zero => omega
  | succ r =>
    simp only [fetch_with_retry]
    split
    · rename_i s0 hds
      by_cases hlen : 0 < s0.length
      · rw [if_pos hlen]
        show done < done + 1
        omega
      · rw [if_neg hlen]
        have hlow := (fetch_with_retry_spec ds r (done + 1)).1
        omega
    · rename_i hds
      have hlow := (fetch_with_retry_spec ds r (done + 1)).1
      omega

/-- C2: the spec-modelled FetchWithRetry.fetch performs at most maxAttempts
attempts against the DataSource, waits the fixed 2-second delay exactly
once per inter-attempt gap, and a successful result is the series of the
first attempt that yielded a non-empty series, every earlier attempt having
failed; the scenario theorem below runs it with maxAttempts = 3 against a
DataSource that fails twice then succeeds. -/
theorem c2_fetch_with_retry (ds : Nat → Option (List ℚ)) (maxAttempts : Nat)
    (h : 0 < maxAttempts) :
    1 ≤ (FetchWithRetry_fetch ds maxAttempts).attempts
    ∧ (FetchWithRetry_fetch ds maxAttempts).attempts ≤ maxAttempts
    ∧ (FetchWithRetry_fetch ds maxAttempts).delaySeconds
        = 2 * ((FetchWithRetry_fetch ds maxAttempts).attempts - 1)
    ∧ ∀ s, (FetchWithRetry_fetch ds maxAttempts).result = some s →
        s ≠ [] ∧ ds ((FetchWithRetry_fetch ds maxAttempts).attempts - 1) = some s
        ∧ ∀ j, j < (FetchWithRetry_fetch ds maxAttempts).attempts - 1 →
            attemptFailed ds j := by
  obtain ⟨h1, h2, h3, h4⟩ := fetch_with_retry_spec ds maxAttempts 0
  have hpos := fetch_with_retry_attempts_pos ds maxAttempts 0 h
  simp only [FetchWithRetry_fetch]
  refine ⟨by omega, by omega, h3, ?_⟩
  intro s hs
  obtain ⟨g1, g2, g3⟩ := h4 s hs
  exact ⟨g1, g2, fun j hj => g3 j (Nat.zero_le j) hj⟩

/-- DataSource for the retry scenario: the first attempt raises, the second
returns an empty series, the third succeeds with a two-record series. -/
def c2_data_source : Nat → Option (List ℚ) := fun j =>
  if j = 0 then none
  else if j = 1 then some []
  else some [100, 110]

theorem c2_fetch_with_retry_witness :
    FetchWithRetry_fetch c2_data_source 3
      = ⟨3, 4, some [100, 110]⟩
    ∧ 1 ≤ (FetchWithRetry_fetch c2_data_source 3).attempts
    ∧ (FetchWithRetry_fetch c2_data_source 3).attempts ≤ 3
    ∧ (FetchWithRetry_fetch c2_data_source 3).delaySeconds
        = 2 * ((FetchWithRetry_fetch c2_data_source 3).attempts - 1)
    ∧ ∀ s, (FetchWithRetry_fetch c2_data_source 3).result = some s →
        s ≠ [] ∧ c2_data_source ((FetchWithRetry_fetch c2_data_source 3).attempts - 1) = some s
        ∧ ∀ j, j < (FetchWithRetry_fetch c2_data_source 3).attempts - 1 →
            attemptFailed c2_data_source j := by
  have h := c2_fetch_with_retry c2_data_source 3 (by norm_num)
  exact ⟨rfl, h.1, h.2.1, h.2.2.1, h.2.2.2⟩
